import Mathlib

/-!
Verification of the family-vault-ai document-processing and retrieval
pipeline.  Text is modelled as `List Char` (JavaScript strings are
sequences of code units; all inputs of interest are ASCII).  External
collaborators (the OpenAI embedding provider, the Node crypto library,
Supabase, the PDF parsers, Math.random) are modelled as explicit oracle
parameters; everything else is translated directly from the TypeScript
sources in `src/`.
-/

set_option autoImplicit false

namespace FamilyVault

/-- JavaScript string for our purposes: a list of characters. -/
abbrev Str := List Char

/-- Whitespace test matching the JavaScript regex class `\s` on the ASCII
characters that occur in the pipeline. -/
def isWsp (c : Char) : Bool :=
  c = ' ' || c = '\t' || c = '\n' || c = '\r' || c = '\x0b' || c = '\x0c'

/-- Word character test matching the JavaScript regex class `\w`:
`[A-Za-z0-9_]`. -/
def isWordChar (c : Char) : Bool :=
  ('a' ≤ c && c ≤ 'z') || ('A' ≤ c && c ≤ 'Z') || ('0' ≤ c && c ≤ '9') || c = '_'

/-- The punctuation class of the normalizer regex `/ ([.,;:!])/`. -/
def isStopPunct (c : Char) : Bool :=
  c = '.' || c = ',' || c = ';' || c = ':' || c = '!'

/-- Auxiliary scanner for `collapseWs`: the flag records whether the scanner
is inside a whitespace run (whose first character has already emitted the
single replacement space). -/
def collapseAux : Bool → Str → Str
  | _, [] => []
  | inRun, c :: rest =>
    if isWsp c then
      if inRun then collapseAux true rest else ' ' :: collapseAux true rest
    else c :: collapseAux false rest

/-- `text.replace(/\s+/g, " ")`: every maximal whitespace run becomes a
single space. -/
def collapseWs (s : Str) : Str := collapseAux false s

/-- JavaScript `String.prototype.trim()`: drop whitespace from both ends. -/
def trimWs (s : Str) : Str :=
  ((s.dropWhile isWsp).reverse.dropWhile isWsp).reverse

/-- `text.replace(/ ([.,;:!])/g, "$1")`: delete a space directly followed by
one of `.,;:!`; scanning resumes after the punctuation character, as with a
global regex replace. -/
def stripSpaceBeforePunct : Str → Str
  | ' ' :: c :: rest =>
    if isStopPunct c then c :: stripSpaceBeforePunct rest
    else ' ' :: stripSpaceBeforePunct (c :: rest)
  | c :: rest => c :: stripSpaceBeforePunct rest
  | [] => []

/-- `text.replace(/(\w)\s(?=\w)/g, "$1")`: a word character followed by a
whitespace character followed (lookahead, not consumed) by a word character
is replaced by the word character alone; scanning resumes at the lookahead
position. -/
def joinWordChars : Str → Str
  | c1 :: c2 :: c3 :: rest =>
    if isWordChar c1 && isWsp c2 && isWordChar c3 then
      c1 :: joinWordChars (c3 :: rest)
    else c1 :: joinWordChars (c2 :: c3 :: rest)
  | s => s

/-- Positional characterisation of `joinWordChars`, stated independently of
the left-to-right scan: a whitespace character is deleted exactly when its
predecessor in the original string is a word character (`prevWord`) and its
successor is a word character; all other characters are kept. -/
def dropWsBetweenWordsAux : Bool → Str → Str
  | _, [] => []
  | prevWord, c :: rest =>
    if isWsp c && prevWord && (match rest with | d :: _ => isWordChar d | [] => false) then
      dropWsBetweenWordsAux false rest
    else c :: dropWsBetweenWordsAux (isWordChar c) rest

/-- Delete every whitespace character standing between two word characters. -/
def dropWsBetweenWords (s : Str) : Str := dropWsBetweenWordsAux false s

/-- First normalization phase of `extractText` in
`src/utils/document-processor.ts` (lines 314-318): collapse whitespace,
remove spaces before punctuation, trim. -/
def normalizeBasic (s : Str) : Str := trimWs (stripSpaceBeforePunct (collapseWs s))

/-- Full normalization performed by `extractText` (lines 314-328): after the
basic phase, if strictly more than half of the space-separated tokens are
single characters, apply the `(\w)\s(?=\w)` join and re-collapse/trim.
`2 * singles > length` encodes `charWords > words.length * 0.5`. -/
def normalizeExtractedText (s : Str) : Str :=
  let t := normalizeBasic s
  let toks := t.splitOn ' '
  if toks.length < 2 * (toks.filter (fun w => w.length = 1)).length then
    trimWs (collapseWs (joinWordChars t))
  else t

/-- Modelled from the spec: the de-hyphenation as the specification
describes it, namely joining only *adjacent single-character tokens*
(multi-character tokens stay intact).  The accumulator holds the current
merged run of single-character tokens. -/
def specJoinSinglesAux (acc : Str) : List Str → List Str
  | [] => if acc = [] then [] else [acc]
  | t :: rest =>
    if t.length = 1 then specJoinSinglesAux (acc ++ t) rest
    else (if acc = [] then [] else [acc]) ++ t :: specJoinSinglesAux [] rest

/-- Modelled from the spec: join adjacent single-character tokens of a token
list, leaving multi-character tokens intact. -/
def specJoinSingleCharTokens (toks : List Str) : List Str := specJoinSinglesAux [] toks

/-! ## Embedding generator (`src/utils/embedding.ts`) -/

/-- `padOrTruncateEmbedding` (embedding.ts lines 38-48): truncate a longer
vector, right-pad a shorter one with zeros, pass an exact-length vector
through. -/
def padOrTruncateEmbedding (embedding : List ℚ) (targetLength : ℕ) : List ℚ :=
  if targetLength < embedding.length then embedding.take targetLength
  else if embedding.length < targetLength then
    embedding ++ List.replicate (targetLength - embedding.length) 0
  else embedding

/-- `generateHashBasedEmbedding` (embedding.ts lines 62-76).  `digest` is
the 32-byte SHA-256 digest of the text as produced by the external crypto
library; `rand` is the stream of `Math.random()` draws (one per pushed
dimension, each in `[0,1)`).  Dimension `i` reads bit `i % 8` of byte
`i % hash.length` and pushes `rand i - 0.5` when the bit is set, the
negation otherwise. -/
def generateHashBasedEmbedding (digest : List ℕ) (rand : ℕ → ℚ) : List ℚ :=
  (List.range 384).map (fun i =>
    let byteValue := digest.getD (i % digest.length) 0
    let bitValue := (byteValue >>> (i % 8)) % 2
    if bitValue = 1 then rand i - 1/2 else -(rand i - 1/2))

/-- The last-resort fallback of `tryHashOrRandomEmbedding` (embedding.ts
lines 56-58): 384 uniform draws shifted by −0.5. -/
def randomFallbackEmbedding (rand : ℕ → ℚ) : List ℚ :=
  (List.range 384).map (fun i => rand i - 1/2)

/-- `tryHashOrRandomEmbedding` (embedding.ts lines 50-60).  `hashThrows`
models the (never observed) possibility that the crypto call itself throws,
in which case the uniform random fallback is used. -/
def tryHashOrRandomEmbedding (digest : List ℕ) (rand : ℕ → ℚ) (hashThrows : Bool) : List ℚ :=
  if hashThrows then randomFallbackEmbedding rand
  else generateHashBasedEmbedding digest rand

/-- `tryOpenAIEmbedding` (embedding.ts lines 18-36): `providerRaw` is the
vector returned by the external provider (`none` when the call failed); a
successful result is padded or truncated to 384. -/
def tryOpenAIEmbedding (providerRaw : Option (List ℚ)) : Option (List ℚ) :=
  providerRaw.map (fun e => padOrTruncateEmbedding e 384)

/-- `generateEmbedding` (embedding.ts lines 9-16): use the provider result
when the key is configured and the call succeeded (`providerRaw = some _`),
otherwise fall back to the hash/random chain. -/
def generateEmbedding (providerRaw : Option (List ℚ)) (digest : List ℕ)
    (rand : ℕ → ℚ) (hashThrows : Bool) : List ℚ :=
  match tryOpenAIEmbedding providerRaw with
  | some e => e
  | none => tryHashOrRandomEmbedding digest rand hashThrows

/-! ## Quality monitor (`QualityMonitor.cosineSimilarity`, embedding.ts lines 327-342) -/

/-- The dot product accumulated by the loop of `cosineSimilarity`. -/
def dotProduct (a b : List ℝ) : ℝ :=
  (List.zip a b).foldl (fun s p => s + p.1 * p.2) 0

/-- The `normA`/`normB` accumulators of `cosineSimilarity`: sum of squares. -/
def sumSquares (a : List ℝ) : ℝ :=
  a.foldl (fun s x => s + x * x) 0

/-- `QualityMonitor.cosineSimilarity`: returns 0 for vectors of unequal
length; computes `dot / (sqrt normA * sqrt normB)` guarded by the falsy test
`magnitude ? dot / magnitude : 0`, which yields 0 when the product of
magnitudes is zero. -/
noncomputable def cosineSimilarity (a b : List ℝ) : ℝ :=
  if a.length ≠ b.length then 0
  else
    if Real.sqrt (sumSquares a) * Real.sqrt (sumSquares b) = 0 then 0
    else dotProduct a b / (Real.sqrt (sumSquares a) * Real.sqrt (sumSquares b))

/-! ## PDF extraction (`extractPdfText`, document-processor.ts lines 537-548) -/

/-- The two extraction strategies of `extractPdfText`. -/
inductive PdfStage where
  | llama
  | pdf2json
deriving DecidableEq

/-- `tryLlamaParsePdf` (lines 550-574): `raw` is `documents[0].text` from the
external LlamaParse reader (`none` when the reader threw or returned no
documents); the trimmed text is returned when non-empty. -/
def tryLlamaParsePdf (raw : Option Str) : Option Str :=
  match raw with
  | none => none
  | some t => if trimWs t = [] then none else some (trimWs t)

/-- The cleanup applied to a successful pdf2json extraction
(lines 595-598): `replace(/\s+/g, " ")` followed by
`replace(/\n\s*\n/g, "\n\n")` and `trim()`.  After the first replacement no
newline remains, so the second replacement is the identity and the cleanup
is collapse-then-trim. -/
def cleanPdf2JsonText (t : Str) : Str := trimWs (collapseWs t)

/-- `tryPdf2JsonExtract` (lines 576-632): `raw` is the flattened text joined
from the parser runs (`none` when the parser reported an error); non-empty
text is cleaned and returned. -/
def tryPdf2JsonExtract (raw : Option Str) : Option Str :=
  match raw with
  | none => none
  | some t => if trimWs t = [] then none else some (cleanPdf2JsonText t)

/-- The sentinel string returned when both PDF strategies fail
(lines 544-547). -/
def pdfSentinel : Str :=
  ("PDF text extraction failed with LlamaParse and pdf2json. This PDF may be image-based or have a complex format. "
    ++ "Please try converting it to a text file or use a different PDF.").data

/-- `extractPdfText` (lines 537-548), instrumented with the list of
strategies actually invoked: LlamaParse is tried first and its result used
when non-null; pdf2json runs only when LlamaParse failed; when both fail the
sentinel string is returned (no exception). -/
def extractPdfText (llamaRaw pdf2jsonRaw : Option Str) : Str × List PdfStage :=
  match tryLlamaParsePdf llamaRaw with
  | some t => (t, [PdfStage.llama])
  | none =>
    match tryPdf2JsonExtract pdf2jsonRaw with
    | some t => (t, [PdfStage.llama, PdfStage.pdf2json])
    | none => (pdfSentinel, [PdfStage.llama, PdfStage.pdf2json])

/-! ## Chunker (`src/utils/chunking.ts` and the `chunkUnitsWithOverlap`
variant of the same module) -/

/-- A chunk as produced by the chunking module: optional heading plus
content. -/
structure RChunk where
  heading : Option Str
  content : Str
deriving DecidableEq

/-- Splitter for the regex `/(?<=[.!?])\s+|\n/` used by `getOverlapChunk`.
`prev` tracks the previous character for the lookbehind; the first
alternative (whitespace run after `.`/`!`/`?`) is tried before the bare
`\n` alternative, consuming the maximal whitespace run.  `fuel` bounds the
recursion; every step consumes at least one character, so `s.length` fuel
never runs out. -/
def splitSentNlAux (stop : Char → Bool) : ℕ → Option Char → Str → Str → List Str
  | _, _, acc, [] => [acc.reverse]
  | 0, _, acc, s => [acc.reverse ++ s]
  | fuel + 1, prev, acc, c :: rest =>
    if (match prev with | some p => stop p | none => false) && isWsp c then
      acc.reverse :: splitSentNlAux stop fuel (some ' ') [] (rest.dropWhile isWsp)
    else if c = '\n' then
      acc.reverse :: splitSentNlAux stop fuel (some '\n') [] rest
    else splitSentNlAux stop fuel (some c) (c :: acc) rest

/-- Sentence-terminator class `[.!?]`. -/
def isSentStop (c : Char) : Bool := c = '.' || c = '!' || c = '?'

/-- `lastChunk.split(/(?<=[.!?])\s+|\n/)`. -/
def splitSentNl (s : Str) : List Str := splitSentNlAux isSentStop s.length none [] s

/-- `getOverlapChunk` (chunking overlap helper): the last sentence or line of
the previous chunk, `""` when the final segment is empty
(`.slice(-1)[0] || ""`). -/
def getOverlapChunk (lastChunk : Str) : Str := (splitSentNl lastChunk).getLastD []

/-- `current + (current ? " " : "") + unit`. -/
def joinSp (current u : Str) : Str :=
  if current = [] then u else current ++ ' ' :: u

/-- The final / flushing push shared by both unit chunkers: push the trimmed
current chunk when its trim is non-empty. -/
def flushPush (chunks : List RChunk) (current : Str) : List RChunk :=
  if trimWs current = [] then chunks else chunks ++ [⟨none, trimWs current⟩]

/-- `flushCurrentChunk` resets `current` only when a chunk was pushed. -/
def flushCur (current : Str) : Str :=
  if trimWs current = [] then current else []

/-- `if (overlap > 0 && chunks.length > 0) current = getOverlapChunk(last)`. -/
def reseed (overlap : ℕ) (chunks : List RChunk) (cur : Str) : Str :=
  if 0 < overlap then
    match chunks.getLast? with
    | some c => getOverlapChunk c.content
    | none => cur
  else cur

/-- `chunkUnitsWithOverlap` main loop (the part_007 variant of the chunking
module, lines 64-115), as a recursion over the remaining units with the
accumulated chunks and the running `current` string.  A lone oversized unit
is pushed verbatim (trimmed); on overflow the current chunk is flushed, the
overlap fragment seeds the next chunk, and if the fragment plus the unit
still exceeds the bound the overlap is discarded and the unit pushed
alone. -/
def cuwoAux (maxChunkSize overlap : ℕ) : List Str → List RChunk → Str → List RChunk
  | [], chunks, current => flushPush chunks current
  | u :: rest, chunks, current =>
    if current = [] ∧ maxChunkSize < u.length then
      cuwoAux maxChunkSize overlap rest (chunks ++ [⟨none, trimWs u⟩]) []
    else if maxChunkSize < (joinSp current u).length then
      if maxChunkSize <
          (joinSp (reseed overlap (flushPush chunks current) (flushCur current)) u).length then
        cuwoAux maxChunkSize overlap rest (flushPush chunks current ++ [⟨none, trimWs u⟩]) []
      else
        cuwoAux maxChunkSize overlap rest (flushPush chunks current)
          (joinSp (reseed overlap (flushPush chunks current) (flushCur current)) u)
    else cuwoAux maxChunkSize overlap rest chunks (joinSp current u)

/-- `chunkUnitsWithOverlap` (part_007 lines 64-115). -/
def chunkUnitsWithOverlap (units : List Str) (maxChunkSize overlap : ℕ) : List RChunk :=
  cuwoAux maxChunkSize overlap units [] []

/-- `groupAndChunkByUnitsSimple` main loop (chunking.ts lines 57-88).  On
overflow with a non-empty `current`, the trimmed current chunk is pushed
unconditionally, the overlap fragment of the just-pushed chunk seeds
`current`, and — unlike `chunkUnitsWithOverlap` — the unit is then appended
with no re-check against `maxChunkSize`. -/
def gacbusAux (maxChunkSize overlap : ℕ) : List Str → List RChunk → Str → List RChunk
  | [], chunks, current => flushPush chunks current
  | u :: rest, chunks, current =>
    if maxChunkSize < (joinSp current u).length ∧ current ≠ [] then
      gacbusAux maxChunkSize overlap rest (chunks ++ [⟨none, trimWs current⟩])
        (joinSp (if 0 < overlap then getOverlapChunk (trimWs current) else []) u)
    else gacbusAux maxChunkSize overlap rest chunks (joinSp current u)

/-- `groupAndChunkByUnitsSimple` (chunking.ts lines 57-88). -/
def groupAndChunkByUnitsSimple (units : List Str) (maxChunkSize overlap : ℕ) : List RChunk :=
  gacbusAux maxChunkSize overlap units [] []

/-- Bullet-marker class `[\-*•]`. -/
def isBulletChar (c : Char) : Bool := c = '-' || c = '*' || c = '•'

/-- `true` when a bullet marker directly followed by whitespace starts the
string: the `[\-*•]\s+` tail of the bullet regex. -/
def bulletStartAux : Str → Bool
  | b :: w :: _ => isBulletChar b && isWsp w
  | _ => false

/-- Scanner for a mid-string match of `/(?:^|\n)[\-*•]\s+/` (the `\n`
alternative). -/
def bulletTestAux : Str → Bool
  | [] => false
  | c :: rest => (c = '\n' && bulletStartAux rest) || bulletTestAux rest

/-- `bulletRegex.test(text)` for `/(?:^|\n)[\-*•]\s+/g`: a match at the very
start (`^`) or after a newline. -/
def bulletTest (s : Str) : Bool :=
  bulletStartAux s || bulletTestAux s

/-- Splitting loop for `text.split(bulletRegex)`: a separator is a newline
followed by a bullet marker followed by a maximal whitespace run.  `fuel`
bounds the recursion; every step consumes at least one character. -/
def bulletSplitAux : ℕ → Str → Str → List Str
  | _, acc, [] => [acc.reverse]
  | 0, acc, s => [acc.reverse ++ s]
  | fuel + 1, acc, c :: rest =>
    if c = '\n' then
      match rest with
      | b :: w :: rest2 =>
        if isBulletChar b && isWsp w then
          acc.reverse :: bulletSplitAux fuel [] (rest2.dropWhile isWsp)
        else bulletSplitAux fuel (c :: acc) rest
      | _ => bulletSplitAux fuel (c :: acc) rest
    else bulletSplitAux fuel (c :: acc) rest

/-- `text.split(/(?:^|\n)[\-*•]\s+/)`: the `^` alternative can only match at
index 0 (no `m` flag), producing a leading empty segment. -/
def bulletSplit (s : Str) : List Str :=
  match s with
  | b :: w :: rest =>
    if isBulletChar b && isWsp w then [] :: bulletSplitAux s.length [] (rest.dropWhile isWsp)
    else bulletSplitAux s.length [] s
  | _ => bulletSplitAux s.length [] s

/-- Splitting loop for `/(?<=[.!?])\s+(?=[A-Z])/`: a separator is a maximal
whitespace run preceded by a sentence terminator and followed by an
uppercase letter.  A run not followed by an uppercase letter is ordinary
content (no shorter prefix of the run can match, since inside the run the
lookbehind character is whitespace). -/
def sentenceSplitAux : ℕ → Option Char → Str → Str → List Str
  | _, _, acc, [] => [acc.reverse]
  | 0, _, acc, s => [acc.reverse ++ s]
  | fuel + 1, prev, acc, c :: rest =>
    if isWsp c && (match prev with | some p => isSentStop p | none => false) then
      let run := c :: rest.takeWhile isWsp
      let after := rest.dropWhile isWsp
      if (match after with | d :: _ => 'A' ≤ d && d ≤ 'Z' | [] => false) then
        acc.reverse :: sentenceSplitAux fuel (some ' ') [] after
      else sentenceSplitAux fuel (some ' ') (run.reverse ++ acc) after
    else sentenceSplitAux fuel (some c) (c :: acc) rest

/-- `text.split(/(?<=[.!?])\s+(?=[A-Z])/)`. -/
def sentenceSplit (s : Str) : List Str := sentenceSplitAux s.length none [] s

/-- Character-fallback loop of `chunkTextBySize` (chunking.ts lines 44-54):
slices of `maxChunkSize` characters, trimmed, empty slices dropped, the
index stepping by `maxChunkSize - overlap`.  `fuel` bounds the recursion;
when `overlap < maxChunkSize` (the only regime the module exercises) each
step consumes at least one character, so `text.length` fuel suffices.  When
`overlap ≥ maxChunkSize` the source loops forever; the fuel merely truncates
that divergent case. -/
def charChunksAux (maxChunkSize overlap : ℕ) : ℕ → Str → List RChunk
  | _, [] => []
  | 0, _ => []
  | fuel + 1, text =>
    let c := trimWs (text.take maxChunkSize)
    (if c = [] then ([] : List RChunk) else [⟨none, c⟩])
      ++ charChunksAux maxChunkSize overlap fuel (text.drop (maxChunkSize - overlap))

/-- The character-fallback path of `chunkTextBySize`. -/
def charChunks (text : Str) (maxChunkSize overlap : ℕ) : List RChunk :=
  charChunksAux maxChunkSize overlap text.length text

/-- `chunkTextBySize` (chunking.ts lines 17-55): bullet units when a bullet
marker occurs, else sentence units when the sentence split yields more than
one sentence, else the character fallback. -/
def chunkTextBySize (text : Str) (maxChunkSize overlap : ℕ) : List RChunk :=
  if text.length = 0 then []
  else if bulletTest text then
    groupAndChunkByUnitsSimple (((bulletSplit text).map trimWs).filter (fun b => b ≠ []))
      maxChunkSize overlap
  else
    let sentences := ((sentenceSplit text).map trimWs).filter (fun s => s ≠ [])
    if 1 < sentences.length then groupAndChunkByUnitsSimple sentences maxChunkSize overlap
    else charChunks text maxChunkSize overlap

/-- `semanticChunkDocument` (chunking.ts lines 9-14): delegates to
`chunkTextBySize` with a fixed overlap of 50. -/
def semanticChunkDocument (text : Str) (maxChunkSize : ℕ) : List RChunk :=
  chunkTextBySize text maxChunkSize 50

/-! ## Retrieval engine (`searchDocuments`, src/app/api/chat/route.ts lines
24-141) -/

/-- A chunk row as returned by the datastore to the retrieval engine. -/
structure SearchRow where
  content : Str
  chunk_index : ℕ
deriving DecidableEq

/-- The three stages of the retrieval cascade. -/
inductive SearchStage where
  | vector
  | keyword
  | fallback
deriving DecidableEq

/-- Oracles for the external calls of `searchDocuments`: the embedding
provider result (`none` when no API key is configured or `embedQuery`
threw), and the three datastore calls (`error` models a returned error). -/
structure SearchOracles where
  provider : Option (List ℚ)
  vectorRes : Except Unit (List SearchRow)
  keywordRes : Except Unit (List SearchRow)
  fallbackRes : Except Unit (List SearchRow)

/-- Splitting loop for `query.split(/\s+/)`: segments between maximal
whitespace runs (a leading run produces a leading empty segment). -/
def splitWsRunsAux : ℕ → Str → Str → List Str
  | _, acc, [] => [acc.reverse]
  | 0, acc, s => [acc.reverse ++ s]
  | fuel + 1, acc, c :: rest =>
    if isWsp c then acc.reverse :: splitWsRunsAux fuel [] (rest.dropWhile isWsp)
    else splitWsRunsAux fuel (c :: acc) rest

/-- `s.split(/\s+/)`. -/
def splitWsRuns (s : Str) : List Str := splitWsRunsAux s.length [] s

/-- The keyword tokenization of the keyword stage (route.ts lines 80-83):
`query.toLowerCase().split(/\s+/).filter((word) => word.length > 2)`. -/
def queryKeywords (q : Str) : List Str :=
  (splitWsRuns (q.map Char.toLower)).filter (fun w => 2 < w.length)

/-- `true` when the running `chunks` variable is still falsy or an empty
array (`!chunks || chunks.length === 0`). -/
def needsMore (c : Option (List SearchRow)) : Bool :=
  match c with
  | none => true
  | some [] => true
  | some (_ :: _) => false

/-- The rows the vector stage contributes: `none` when the stage is skipped
(no query embedding) or the RPC returned an error, otherwise the returned
row list. -/
def vectorOutcome (o : SearchOracles) : Option (List SearchRow) :=
  match o.provider with
  | none => none
  | some _ =>
    match o.vectorRes with
    | .error _ => none
    | .ok l => some l

/-- `searchDocuments` (route.ts lines 24-141), instrumented with the list of
stages invoked, in order.  The vector RPC runs only when a query embedding
was produced; the keyword query runs only when no rows are present yet and
the query has keywords; the `chunk_index`-ordered listing runs only when
still no rows are present; a fallback-stage error returns `[]`. -/
def searchDocuments (q : Str) (o : SearchOracles) : List SearchRow × List SearchStage :=
  let queryEmbedding : List ℚ :=
    match o.provider with
    | some raw => padOrTruncateEmbedding raw 384
    | none => []
  let p1 : Option (List SearchRow) × List SearchStage :=
    if 0 < queryEmbedding.length then
      match o.vectorRes with
      | .error _ => (none, [SearchStage.vector])
      | .ok l => (some l, [SearchStage.vector])
    else (none, [])
  if needsMore p1.1 then
    let p2 : Option (List SearchRow) × List SearchStage :=
      if queryKeywords q ≠ [] then
        match o.keywordRes with
        | .error _ => (p1.1, p1.2 ++ [SearchStage.keyword])
        | .ok l => (some l, p1.2 ++ [SearchStage.keyword])
      else p1
    if needsMore p2.1 then
      match o.fallbackRes with
      | .error _ => ([], p2.2 ++ [SearchStage.fallback])
      | .ok l => (l, p2.2 ++ [SearchStage.fallback])
    else (p2.1.getD [], p2.2)
  else (p1.1.getD [], p1.2)

/-! ## Pipeline orchestrator (`processDocument`,
src/utils/document-processor.ts lines 235-269 and helpers 282-412) -/

/-- Error values are message strings. -/
abbrev Err := Str

/-- A row of `document_chunks` as built by `generateChunkEmbeddings`
(`document_id`/`user_id` are the fixed identifiers of the document being
processed and are omitted; the bracketed string formatting of the embedding
is represented by the vector itself). -/
structure ChunkRow where
  chunk_index : ℕ
  content : Str
  token_count : ℕ
  embedding : List ℚ
deriving DecidableEq

/-- The persisted state of one document and its chunk rows. -/
structure DocState where
  processed : Bool
  processing_error : Option Str
  extracted_text : Option Str
  chunkRows : List ChunkRow
deriving DecidableEq

/-- Oracles for the external calls of `processDocument`: whether the
document row exists for this id/owner, the outcome of decryption, the
outcome of `extractTextFromFile` on the decrypted buffer, the embedding
outcome per chunk index (`generateEmbedding` can only fail if even the
terminal fallback throws), the batch-insert outcome and the status-update
outcome. -/
structure ProcOracles where
  docFound : Bool
  decryptRes : Except Err Str
  extractRes : Except Err Str
  embed : ℕ → Except Err (List ℚ)
  insertErr : Option Err
  updateOk : Bool
  updateErrMsg : Err

/-- `fetchDocument` (lines 282-296): `Document not found` when the row is
missing, `Document already processed` when `processed` is set. -/
def fetchDocument (st : DocState) (o : ProcOracles) : Except Err Unit :=
  if o.docFound = false then .error "Document not found".data
  else if st.processed then .error "Document already processed".data
  else .ok ()

/-- `extractText` (lines 306-329): run the extractor, fail when the result
trims to empty, then normalize (whitespace collapse, punctuation spacing,
letter-spacing heuristic). -/
def extractTextStep (o : ProcOracles) : Except Err Str :=
  match o.decryptRes with
  | .error e => .error e
  | .ok _ =>
    match o.extractRes with
    | .error e => .error e
    | .ok raw =>
      if trimWs raw = [] then .error "No text could be extracted from the document".data
      else .ok (normalizeExtractedText raw)

/-- The chunk list produced for a document: the extracted text fed to the
chunking step (`semanticChunkDocument` with the `chunkText` fallback, both
of which delegate to this parameter). -/
def pipelineChunks (o : ProcOracles) (chunker : Str → List Str) : Except Err (List Str) :=
  (extractTextStep o).map chunker

/-- Loop of `generateChunkEmbeddings` (lines 340-369): build one row per
chunk; a failing embedding aborts with
`Failed to generate embedding for chunk {i+1}: …` before any row is
persisted.  `token_count` is `Math.ceil(length / 4)`. -/
def gceAux (embedO : ℕ → Except Err (List ℚ)) : ℕ → List Str → Except Err (List ChunkRow)
  | _, [] => .ok []
  | i, c :: rest =>
    match embedO i with
    | .error m =>
      .error ("Failed to generate embedding for chunk ".data
        ++ (Nat.repr (i + 1)).data ++ ": ".data ++ m)
    | .ok emb =>
      match gceAux embedO (i + 1) rest with
      | .error e => .error e
      | .ok rows => .ok (⟨i, c, (c.length + 3) / 4, emb⟩ :: rows)

/-- `generateChunkEmbeddings` (lines 340-369). -/
def generateChunkEmbeddings (chunks : List Str) (embedO : ℕ → Except Err (List ℚ)) :
    Except Err (List ChunkRow) :=
  gceAux embedO 0 chunks

/-- `updateDocumentError` (lines 397-412): record the failure message on the
document row. -/
def updateDocumentError (st : DocState) (e : Err) : DocState :=
  { st with processing_error := some e }

/-- `processDocument` (lines 235-269): fetch, decrypt, extract+normalize,
chunk, embed every chunk, insert all rows in one batch, then mark the
document processed; any thrown error is recorded via `updateDocumentError`
and re-thrown.  Returns the final state and either the summary
`(chunk count, extracted length)` or the error. -/
def processDocument (st : DocState) (o : ProcOracles) (chunker : Str → List Str) :
    DocState × Except Err (ℕ × ℕ) :=
  match fetchDocument st o with
  | .error e => (updateDocumentError st e, .error e)
  | .ok _ =>
    match extractTextStep o with
    | .error e => (updateDocumentError st e, .error e)
    | .ok text =>
      let chunks := chunker text
      match generateChunkEmbeddings chunks o.embed with
      | .error e => (updateDocumentError st e, .error e)
      | .ok rows =>
        match o.insertErr with
        | some m =>
          (updateDocumentError st ("Failed to store document chunks: ".data ++ m),
            .error ("Failed to store document chunks: ".data ++ m))
        | none =>
          let st1 : DocState := { st with chunkRows := st.chunkRows ++ rows }
          if o.updateOk then
            ({ st1 with processed := true, extracted_text := some (text.take 10000) },
              .ok (chunks.length, text.length))
          else (updateDocumentError st1 o.updateErrMsg, .error o.updateErrMsg)

/-! ## General lemmas -/

theorem trimWs_length_le (s : Str) : (trimWs s).length ≤ s.length := by
  unfold trimWs
  calc ((s.dropWhile isWsp).reverse.dropWhile isWsp).reverse.length
      = ((s.dropWhile isWsp).reverse.dropWhile isWsp).length := List.length_reverse _
    _ ≤ (s.dropWhile isWsp).reverse.length :=
        (List.IsSuffix.sublist (List.dropWhile_suffix isWsp)).length_le
    _ = (s.dropWhile isWsp).length := List.length_reverse _
    _ ≤ s.length := (List.IsSuffix.sublist (List.dropWhile_suffix isWsp)).length_le

theorem mem_flushPush {chunks : List RChunk} {current : Str} {c : RChunk}
    (h : c ∈ flushPush chunks current) : c ∈ chunks ∨ c = ⟨none, trimWs current⟩ := by
  unfold flushPush at h
  split at h
  · exact Or.inl h
  · rcases List.mem_append.mp h with h1 | h1
    · exact Or.inl h1
    · exact Or.inr (by simpa using h1)

theorem getD_map_range (f : ℕ → ℚ) (n i : ℕ) (h : i < n) (d : ℚ) :
    ((List.range n).map f).getD i d = f i := by
  rw [List.getD_eq_getElem?_getD, List.getElem?_map, List.getElem?_range h]
  rfl

/-- Invariant of the `chunkUnitsWithOverlap` loop: provided the running
chunk respects the bound, every emitted chunk is an input chunk, respects
the bound, or is the trim of a single unit (pushed verbatim). -/
theorem cuwoAux_mem (maxChunkSize overlap : ℕ) (units : List Str) :
    ∀ (chunks : List RChunk) (current : Str),
      current.length ≤ maxChunkSize →
      ∀ c ∈ cuwoAux maxChunkSize overlap units chunks current,
        c ∈ chunks ∨ c.content.length ≤ maxChunkSize ∨ ∃ u ∈ units, c.content = trimWs u := by
  induction units with
  | nil =>
    intro chunks current hcur c hc
    simp only [cuwoAux] at hc
    rcases mem_flushPush hc with h | h
    · exact Or.inl h
    · refine Or.inr (Or.inl ?_)
      rw [h]
      exact le_trans (trimWs_length_le current) hcur
  | cons u rest ih =>
    intro chunks current hcur c hc
    simp only [cuwoAux] at hc
    split at hc
    · -- lone oversized unit pushed verbatim
      rcases ih _ [] (Nat.zero_le _) c hc with h | h | ⟨u2, hu2, he⟩
      · rcases List.mem_append.mp h with h1 | h1
        · exact Or.inl h1
        · exact Or.inr (Or.inr ⟨u, List.mem_cons_self u rest,
            by rw [show c = (⟨none, trimWs u⟩ : RChunk) from by simpa using h1]⟩)
      · exact Or.inr (Or.inl h)
      · exact Or.inr (Or.inr ⟨u2, List.mem_cons_of_mem u hu2, he⟩)
    · split at hc
      · split at hc
        · -- flush, overlap fragment still too large: unit pushed alone
          rcases ih _ [] (Nat.zero_le _) c hc with h | h | ⟨u2, hu2, he⟩
          · rcases List.mem_append.mp h with h1 | h1
            · rcases mem_flushPush h1 with h2 | h2
              · exact Or.inl h2
              · exact Or.inr (Or.inl (by rw [h2]; exact le_trans (trimWs_length_le current) hcur))
            · exact Or.inr (Or.inr ⟨u, List.mem_cons_self u rest,
                by rw [show c = (⟨none, trimWs u⟩ : RChunk) from by simpa using h1]⟩)
          · exact Or.inr (Or.inl h)
          · exact Or.inr (Or.inr ⟨u2, List.mem_cons_of_mem u hu2, he⟩)
        · -- flush, proceed with overlap fragment plus unit (now within bound)
          rename_i hnot
          rcases ih _ _ (le_of_not_lt hnot) c hc with h | h | ⟨u2, hu2, he⟩
          · rcases mem_flushPush h with h2 | h2
            · exact Or.inl h2
            · exact Or.inr (Or.inl (by rw [h2]; exact le_trans (trimWs_length_le current) hcur))
          · exact Or.inr (Or.inl h)
          · exact Or.inr (Or.inr ⟨u2, List.mem_cons_of_mem u hu2, he⟩)
      · -- the unit fits: extend the current chunk
        rename_i hnot
        rcases ih _ _ (le_of_not_lt hnot) c hc with h | h | ⟨u2, hu2, he⟩
        · exact Or.inl h
        · exact Or.inr (Or.inl h)
        · exact Or.inr (Or.inr ⟨u2, List.mem_cons_of_mem u hu2, he⟩)

theorem dbAux_cons (b : Bool) (c : Char) (rest : Str) :
    dropWsBetweenWordsAux b (c :: rest) =
      if (isWsp c && b && (match rest with | d :: _ => isWordChar d | [] => false)) = true then
        dropWsBetweenWordsAux false rest
      else c :: dropWsBetweenWordsAux (isWordChar c) rest := rfl

theorem keep_head_of_sc (c1 c2 : Char) (b : Bool)
    (h : b = true → ¬(isWsp c1 = true ∧ isWordChar c2 = true)) :
    (isWsp c1 && b && isWordChar c2) = false := by
  cases hb : b with
  | false => simp
  | true =>
    have h2 := h hb
    cases hw : isWsp c1 with
    | false => simp [hw]
    | true =>
      cases hd : isWordChar c2 with
      | false => simp [hd]
      | true => exact absurd ⟨hw, hd⟩ h2

theorem joinWordChars_eq_aux : ∀ (n : ℕ) (s : Str), s.length ≤ n → ∀ (b : Bool),
    (b = true → ∀ c d rest2, s = c :: d :: rest2 → ¬(isWsp c = true ∧ isWordChar d = true)) →
    joinWordChars s = dropWsBetweenWordsAux b s := by
  intro n
  induction n with
  | zero =>
    intro s hs b _
    rw [List.eq_nil_of_length_eq_zero (Nat.le_zero.mp hs)]
    rfl
  | succ n ih =>
    intro s hs b hsc
    match s with
    | [] => rfl
    | [c1] =>
      rw [show joinWordChars [c1] = [c1] from rfl, dbAux_cons]
      simp [dropWsBetweenWordsAux]
    | [c1, c2] =>
      have hcond : (isWsp c1 && b && isWordChar c2) = false :=
        keep_head_of_sc c1 c2 b (fun hb => hsc hb c1 c2 [] rfl)
      rw [show joinWordChars [c1, c2] = [c1, c2] from rfl, dbAux_cons]
      simp only [show (match [c2] with | d :: _ => isWordChar d | [] => false) = isWordChar c2
        from rfl, hcond]
      rw [if_neg (by simp), dbAux_cons]
      simp [dropWsBetweenWordsAux]
    | c1 :: c2 :: c3 :: rest =>
      have hkeep : (isWsp c1 && b && isWordChar c2) = false :=
        keep_head_of_sc c1 c2 b (fun hb => hsc hb c1 c2 (c3 :: rest) rfl)
      have hstep : dropWsBetweenWordsAux b (c1 :: c2 :: c3 :: rest)
          = c1 :: dropWsBetweenWordsAux (isWordChar c1) (c2 :: c3 :: rest) := by
        rw [dbAux_cons]
        simp only [show (match c2 :: c3 :: rest with | d :: _ => isWordChar d | [] => false)
          = isWordChar c2 from rfl, hkeep]
        rw [if_neg (by simp)]
      by_cases hm : (isWordChar c1 && isWsp c2 && isWordChar c3) = true
      · have hw1 : isWordChar c1 = true := by
          rcases Bool.and_eq_true_iff.mp hm with ⟨h, _⟩
          exact (Bool.and_eq_true_iff.mp h).1
        have hw2 : isWsp c2 = true := by
          rcases Bool.and_eq_true_iff.mp hm with ⟨h, _⟩
          exact (Bool.and_eq_true_iff.mp h).2
        have hw3 : isWordChar c3 = true := (Bool.and_eq_true_iff.mp hm).2
        rw [show joinWordChars (c1 :: c2 :: c3 :: rest) = c1 :: joinWordChars (c3 :: rest) from by
          rw [joinWordChars]; rw [if_pos hm]]
        rw [hstep]
        rw [show dropWsBetweenWordsAux (isWordChar c1) (c2 :: c3 :: rest)
            = dropWsBetweenWordsAux false (c3 :: rest) from by
          rw [dbAux_cons]
          rw [if_pos (by
            simp only [show (match c3 :: rest with | d :: _ => isWordChar d | [] => false)
              = isWordChar c3 from rfl]
            rw [hw1, hw2, hw3]; rfl)]]
        refine congrArg (c1 :: ·) (ih (c3 :: rest) (by simp at hs ⊢; omega) false ?_)
        intro h
        exact absurd h (by simp)
      · rw [show joinWordChars (c1 :: c2 :: c3 :: rest)
            = c1 :: joinWordChars (c2 :: c3 :: rest) from by
          rw [joinWordChars]; rw [if_neg hm]]
        rw [hstep]
        refine congrArg (c1 :: ·) (ih (c2 :: c3 :: rest) (by simp at hs ⊢; omega) (isWordChar c1) ?_)
        intro hw1 c d rest2 heq
        obtain ⟨rfl, rfl, rfl⟩ : c2 = c ∧ c3 = d ∧ rest = rest2 := by
          simpa using heq
        intro hcd
        obtain ⟨h1, h2⟩ := hcd
        exact absurd hm (by simp [hw1, h1, h2])

theorem joinWordChars_eq_dropWsBetweenWords (s : Str) :
    joinWordChars s = dropWsBetweenWords s :=
  joinWordChars_eq_aux s.length s le_rfl false (by intro h; exact absurd h (by simp))

theorem dropWhile_wsp_replicate_a (n : ℕ) :
    (List.replicate n 'a').dropWhile isWsp = List.replicate n 'a' := by
  cases n with
  | zero => rfl
  | succ m =>
    rw [List.replicate_succ, List.dropWhile_cons]
    simp [show isWsp 'a' = false from rfl]

theorem trimWs_replicate_a (n : ℕ) :
    trimWs (List.replicate n 'a') = List.replicate n 'a' := by
  unfold trimWs
  rw [dropWhile_wsp_replicate_a, List.reverse_replicate, dropWhile_wsp_replicate_a,
    List.reverse_replicate]

theorem bulletStartAux_replicate_a (n : ℕ) :
    bulletStartAux (List.replicate n 'a') = false := by
  match n with
  | 0 => rfl
  | 1 => rfl
  | m + 2 =>
    rw [show List.replicate (m + 2) 'a' = 'a' :: 'a' :: List.replicate m 'a' from by
      rw [List.replicate_succ, List.replicate_succ]]
    rfl

theorem bulletTestAux_replicate_a (n : ℕ) :
    bulletTestAux (List.replicate n 'a') = false := by
  induction n with
  | zero => rfl
  | succ m ih =>
    rw [List.replicate_succ, bulletTestAux]
    rw [show (decide (('a' : Char) = '\n')) = false from rfl, Bool.false_and, Bool.false_or, ih]

theorem bulletTest_replicate_a (n : ℕ) :
    bulletTest (List.replicate n 'a') = false := by
  rw [bulletTest, bulletStartAux_replicate_a, bulletTestAux_replicate_a, Bool.false_or]

theorem sentenceSplitAux_replicate_a (n : ℕ) :
    ∀ (fuel : ℕ) (prev : Option Char) (acc : Str), n ≤ fuel →
      sentenceSplitAux fuel prev acc (List.replicate n 'a')
        = [acc.reverse ++ List.replicate n 'a'] := by
  induction n with
  | zero =>
    intro fuel prev acc h
    cases fuel <;> simp [sentenceSplitAux]
  | succ m ih =>
    intro fuel prev acc h
    cases fuel with
    | zero => omega
    | succ f =>
      rw [List.replicate_succ]
      rw [show sentenceSplitAux (f + 1) prev acc ('a' :: List.replicate m 'a')
          = sentenceSplitAux f (some 'a') ('a' :: acc) (List.replicate m 'a') from rfl]
      rw [ih f (some 'a') ('a' :: acc) (by omega)]
      simp [List.replicate_succ]

theorem charChunksAux_nil (maxChunkSize overlap fuel : ℕ) :
    charChunksAux maxChunkSize overlap fuel [] = [] := by
  cases fuel <;> rfl

theorem charChunksAux_cons (maxChunkSize overlap fuel : ℕ) (c : Char) (rest : Str) :
    charChunksAux maxChunkSize overlap (fuel + 1) (c :: rest) =
      (if trimWs ((c :: rest).take maxChunkSize) = [] then []
        else [⟨none, trimWs ((c :: rest).take maxChunkSize)⟩])
        ++ charChunksAux maxChunkSize overlap fuel ((c :: rest).drop (maxChunkSize - overlap)) := rfl

theorem chunkTextBySize_replicate_a (n maxChunkSize overlap : ℕ) (hn : n ≠ 0) :
    chunkTextBySize (List.replicate n 'a') maxChunkSize overlap
      = charChunks (List.replicate n 'a') maxChunkSize overlap := by
  unfold chunkTextBySize
  rw [if_neg (by simp [hn]), if_neg (by rw [bulletTest_replicate_a]; simp)]
  rw [show sentenceSplit (List.replicate n 'a') = [List.replicate n 'a'] from by
    unfold sentenceSplit
    rw [sentenceSplitAux_replicate_a n _ none [] (by rw [List.length_replicate])]
    rfl]
  simp only [List.map_cons, List.map_nil, trimWs_replicate_a]
  rw [show List.filter (fun s => decide (s ≠ [])) [List.replicate n 'a'] = [List.replicate n 'a']
    from by simp [hn]]
  rw [if_neg (by simp)]

theorem charChunks_a2500_50 :
    charChunks (List.replicate 2500 'a') 1000 50 =
      [⟨none, List.replicate 1000 'a'⟩, ⟨none, List.replicate 1000 'a'⟩,
        ⟨none, List.replicate 600 'a'⟩] := by
  unfold charChunks
  rw [List.length_replicate]
  rw [show (2500 : ℕ) = 2499 + 1 from by norm_num,
    show List.replicate (2499 + 1) 'a' = 'a' :: List.replicate 2499 'a' from
      List.replicate_succ 'a' 2499, charChunksAux_cons]
  rw [show ('a' :: List.replicate 2499 'a') = List.replicate 2500 'a' from
    (List.replicate_succ 'a' 2499).symm]
  rw [List.take_replicate, List.drop_replicate]
  norm_num
  rw [trimWs_replicate_a]
  rw [if_neg (by simp)]
  rw [show (2499 : ℕ) = 2498 + 1 from by norm_num,
    show List.replicate 1550 'a' = 'a' :: List.replicate 1549 'a' from
      List.replicate_succ 'a' 1549, charChunksAux_cons]
  rw [show ('a' :: List.replicate 1549 'a') = List.replicate 1550 'a' from
    (List.replicate_succ 'a' 1549).symm]
  rw [List.take_replicate, List.drop_replicate]
  norm_num
  rw [trimWs_replicate_a]
  rw [if_neg (by simp)]
  rw [show (2498 : ℕ) = 2497 + 1 from by norm_num,
    show List.replicate 600 'a' = 'a' :: List.replicate 599 'a' from
      List.replicate_succ 'a' 599, charChunksAux_cons]
  rw [show ('a' :: List.replicate 599 'a') = List.replicate 600 'a' from
    (List.replicate_succ 'a' 599).symm]
  rw [List.take_replicate, List.drop_replicate]
  norm_num
  rw [trimWs_replicate_a]
  rw [if_neg (by simp)]
  rw [charChunksAux_nil]
  rfl

theorem charChunks_a2500_0 :
    charChunks (List.replicate 2500 'a') 1000 0 =
      [⟨none, List.replicate 1000 'a'⟩, ⟨none, List.replicate 1000 'a'⟩,
        ⟨none, List.replicate 500 'a'⟩] := by
  unfold charChunks
  rw [List.length_replicate]
  rw [show (2500 : ℕ) = 2499 + 1 from by norm_num,
    show List.replicate (2499 + 1) 'a' = 'a' :: List.replicate 2499 'a' from
      List.replicate_succ 'a' 2499, charChunksAux_cons]
  rw [show ('a' :: List.replicate 2499 'a') = List.replicate 2500 'a' from
    (List.replicate_succ 'a' 2499).symm]
  rw [List.take_replicate, List.drop_replicate]
  norm_num
  rw [trimWs_replicate_a]
  rw [if_neg (by simp)]
  rw [show (2499 : ℕ) = 2498 + 1 from by norm_num,
    show List.replicate 1500 'a' = 'a' :: List.replicate 1499 'a' from
      List.replicate_succ 'a' 1499, charChunksAux_cons]
  rw [show ('a' :: List.replicate 1499 'a') = List.replicate 1500 'a' from
    (List.replicate_succ 'a' 1499).symm]
  rw [List.take_replicate, List.drop_replicate]
  norm_num
  rw [trimWs_replicate_a]
  rw [if_neg (by simp)]
  rw [show (2498 : ℕ) = 2497 + 1 from by norm_num,
    show List.replicate 500 'a' = 'a' :: List.replicate 499 'a' from
      List.replicate_succ 'a' 499, charChunksAux_cons]
  rw [show ('a' :: List.replicate 499 'a') = List.replicate 500 'a' from
    (List.replicate_succ 'a' 499).symm]
  rw [List.take_replicate, List.drop_replicate]
  norm_num
  rw [trimWs_replicate_a]
  rw [if_neg (by simp)]
  rw [charChunksAux_nil]
  rfl

theorem padOrTruncateEmbedding_length (e : List ℚ) (t : ℕ) :
    (padOrTruncateEmbedding e t).length = t := by
  unfold padOrTruncateEmbedding
  split
  · rw [List.length_take]
    omega
  · split
    · rw [List.length_append, List.length_replicate]
      omega
    · omega

theorem gceAux_error_of_embed_error (embedO : ℕ → Except Err (List ℚ)) :
    ∀ (chunks : List Str) (i : ℕ),
      (∃ j, j < chunks.length ∧ ∃ m, embedO (i + j) = .error m) →
      ∃ e, gceAux embedO i chunks = .error e := by
  intro chunks
  induction chunks with
  | nil =>
    intro i h
    obtain ⟨j, hj, _⟩ := h
    simp at hj
  | cons c rest ih =>
    intro i h
    obtain ⟨j, hj, m, hm⟩ := h
    cases hej : embedO i with
    | error m2 => exact ⟨_, by rw [gceAux, hej]⟩
    | ok emb =>
      have hrest : ∃ j2, j2 < rest.length ∧ ∃ m2, embedO (i + 1 + j2) = .error m2 := by
        cases j with
        | zero =>
          rw [Nat.add_zero] at hm
          rw [hej] at hm
          exact absurd hm (by simp)
        | succ j2 =>
          refine ⟨j2, by simp at hj; omega, m, ?_⟩
          rw [show i + 1 + j2 = i + (j2 + 1) from by omega]
          exact hm
      obtain ⟨e, he⟩ := ih (i + 1) hrest
      exact ⟨e, by rw [gceAux, hej, he]⟩

/-- Claim C4: chunk persistence is all-or-nothing.  For an unprocessed
document: (1) any processing failure records the error in
`processing_error` while `processed` stays `false`; (2) if the pipeline
produced chunks and the embedding of any of them fails, processing aborts
with no chunk row inserted; (3) chunk rows change only by appending, in one
batch, the full row list of a successful `generateChunkEmbeddings` run. -/
theorem processDocument_all_or_nothing (st : DocState) (o : ProcOracles)
    (chunker : Str → List Str) (h : st.processed = false) :
    (∀ e, (processDocument st o chunker).2 = .error e →
      (processDocument st o chunker).1.processed = false
        ∧ (processDocument st o chunker).1.processing_error = some e)
    ∧ (∀ chs, pipelineChunks o chunker = .ok chs →
        (∃ j, j < chs.length ∧ ∃ m, o.embed j = .error m) →
        (processDocument st o chunker).1.chunkRows = st.chunkRows
          ∧ ∃ e, (processDocument st o chunker).2 = .error e)
    ∧ ((processDocument st o chunker).1.chunkRows = st.chunkRows
        ∨ ∃ rows, (pipelineChunks o chunker).bind
            (fun chs => generateChunkEmbeddings chs o.embed) = .ok rows
          ∧ (processDocument st o chunker).1.chunkRows = st.chunkRows ++ rows) := by
  cases hfd : fetchDocument st o with
  | error e0 =>
    refine ⟨?_, ?_, ?_⟩
    · intro e he
      simp [processDocument, hfd, updateDocumentError, h] at he ⊢
      simp [he.symm]
    · intro chs hchs hex
      simp [processDocument, hfd, updateDocumentError]
    · left
      simp [processDocument, hfd, updateDocumentError]
  | ok u =>
    cases hts : extractTextStep o with
    | error e1 =>
      have hpc : pipelineChunks o chunker = .error e1 := by
        unfold pipelineChunks
        rw [hts]
        rfl
      refine ⟨?_, ?_, ?_⟩
      · intro e he
        simp [processDocument, hfd, hts, updateDocumentError, h] at he ⊢
        simp [he.symm]
      · intro chs hchs hex
        rw [hpc] at hchs
        exact absurd hchs (by simp)
      · left
        simp [processDocument, hfd, hts, updateDocumentError]
    | ok text =>
      have hpc : pipelineChunks o chunker = .ok (chunker text) := by
        unfold pipelineChunks
        rw [hts]
        rfl
      cases hg : generateChunkEmbeddings (chunker text) o.embed with
      | error e2 =>
        refine ⟨?_, ?_, ?_⟩
        · intro e he
          simp [processDocument, hfd, hts, hg, updateDocumentError, h] at he ⊢
          simp [he.symm]
        · intro chs hchs hex
          simp [processDocument, hfd, hts, hg, updateDocumentError]
        · left
          simp [processDocument, hfd, hts, hg, updateDocumentError]
      | ok rows =>
        cases hins : o.insertErr with
        | some m =>
          refine ⟨?_, ?_, ?_⟩
          · intro e he
            simp [processDocument, hfd, hts, hg, hins, updateDocumentError, h] at he ⊢
            simp [he.symm]
          · intro chs hchs hex
            rw [hpc] at hchs
            obtain ⟨e3, he3⟩ := gceAux_error_of_embed_error o.embed (chunker text) 0 (by
              have hchs2 : chunker text = chs := by simpa using hchs
              rw [hchs2]
              simpa using hex)
            unfold generateChunkEmbeddings at hg
            rw [hg] at he3
            exact absurd he3 (by simp)
          · left
            simp [processDocument, hfd, hts, hg, hins, updateDocumentError]
        | none =>
          cases hup : o.updateOk with
          | true =>
            refine ⟨?_, ?_, ?_⟩
            · intro e he
              simp [processDocument, hfd, hts, hg, hins, hup, updateDocumentError] at he
            · intro chs hchs hex
              rw [hpc] at hchs
              obtain ⟨e3, he3⟩ := gceAux_error_of_embed_error o.embed (chunker text) 0 (by
                have hchs2 : chunker text = chs := by simpa using hchs
                rw [hchs2]
                simpa using hex)
              unfold generateChunkEmbeddings at hg
              rw [hg] at he3
              exact absurd he3 (by simp)
            · right
              refine ⟨rows, by rw [hpc]; simpa using hg, ?_⟩
              simp [processDocument, hfd, hts, hg, hins, hup]
          | false =>
            refine ⟨?_, ?_, ?_⟩
            · intro e he
              simp [processDocument, hfd, hts, hg, hins, hup, updateDocumentError, h] at he ⊢
              simp [he.symm]
            · intro chs hchs hex
              rw [hpc] at hchs
              obtain ⟨e3, he3⟩ := gceAux_error_of_embed_error o.embed (chunker text) 0 (by
                have hchs2 : chunker text = chs := by simpa using hchs
                rw [hchs2]
                simpa using hex)
              unfold generateChunkEmbeddings at hg
              rw [hg] at he3
              exact absurd he3 (by simp)
            · right
              refine ⟨rows, by rw [hpc]; simpa using hg, ?_⟩
              simp [processDocument, hfd, hts, hg, hins, hup, updateDocumentError]

/-- Claim C8 (amended): invoking `processDocument` on a document whose
`processed` flag is set fails with `Document already processed` without
extracting, chunking or inserting chunks — the result is independent of
every extraction/chunking/embedding oracle — and leaves `processed` and the
chunk rows unchanged; however, the failure is recorded in
`processing_error`, so the document row itself does change. -/
theorem processDocument_already_processed (st : DocState) (o : ProcOracles)
    (chunker : Str → List Str) (h : st.processed = true) (h2 : o.docFound = true) :
    processDocument st o chunker =
      ({ st with processing_error := some "Document already processed".data },
        .error "Document already processed".data) := by
  have hfd : fetchDocument st o = .error "Document already processed".data := by
    unfold fetchDocument
    rw [h2, h]
    simp
  simp [processDocument, hfd, updateDocumentError]

/-- Claim C1: the embedding generator always returns a vector of length
exactly 384: a longer provider vector is truncated to its first 384
entries, a shorter one is zero-padded on the right, and both the hash-based
fallback and the last-resort random fallback produce exactly 384 entries. -/
theorem generateEmbedding_dim384 (providerRaw : Option (List ℚ)) (digest : List ℕ)
    (rand : ℕ → ℚ) (hashThrows : Bool) :
    (generateEmbedding providerRaw digest rand hashThrows).length = 384
    ∧ (∀ e : List ℚ, 384 < e.length → padOrTruncateEmbedding e 384 = e.take 384)
    ∧ (∀ e : List ℚ, e.length < 384 →
        padOrTruncateEmbedding e 384 = e ++ List.replicate (384 - e.length) 0)
    ∧ (∀ e : List ℚ, e.length = 384 → padOrTruncateEmbedding e 384 = e)
    ∧ (generateHashBasedEmbedding digest rand).length = 384
    ∧ (randomFallbackEmbedding rand).length = 384 := by
  have hh : (generateHashBasedEmbedding digest rand).length = 384 := by
    unfold generateHashBasedEmbedding
    rw [List.length_map, List.length_range]
  have hr : (randomFallbackEmbedding rand).length = 384 := by
    unfold randomFallbackEmbedding
    rw [List.length_map, List.length_range]
  refine ⟨?_, ?_, ?_, ?_, hh, hr⟩
  · cases providerRaw with
    | none =>
      have hge : generateEmbedding none digest rand hashThrows
          = tryHashOrRandomEmbedding digest rand hashThrows := rfl
      rw [hge]
      unfold tryHashOrRandomEmbedding
      split
      · exact hr
      · exact hh
    | some raw =>
      have hge : generateEmbedding (some raw) digest rand hashThrows
          = padOrTruncateEmbedding raw 384 := rfl
      rw [hge]
      exact padOrTruncateEmbedding_length raw 384
  · intro e he
    unfold padOrTruncateEmbedding
    rw [if_pos he]
  · intro e he
    unfold padOrTruncateEmbedding
    rw [if_neg (by omega), if_pos he]
  · intro e he
    unfold padOrTruncateEmbedding
    rw [if_neg (by omega), if_neg (by omega)]

/-- Witness for C1 at the dimensionalities named by the spec (1600 and
100), and a full run through the provider branch. -/
theorem generateEmbedding_dim384_witness :
    (384 < (List.replicate 1600 (1:ℚ)).length
      ∧ padOrTruncateEmbedding (List.replicate 1600 (1:ℚ)) 384
          = (List.replicate 1600 (1:ℚ)).take 384)
    ∧ ((List.replicate 100 (1:ℚ)).length < 384
      ∧ padOrTruncateEmbedding (List.replicate 100 (1:ℚ)) 384
          = List.replicate 100 (1:ℚ)
            ++ List.replicate (384 - (List.replicate 100 (1:ℚ)).length) 0)
    ∧ (generateEmbedding (some (List.replicate 1600 1)) [] (fun _ => 0) false).length = 384 := by
  have h := generateEmbedding_dim384 (some (List.replicate 1600 1)) [] (fun _ => 0) false
  have l1600 : (List.replicate 1600 (1:ℚ)).length = 1600 := List.length_replicate 1600 1
  have l100 : (List.replicate 100 (1:ℚ)).length = 100 := List.length_replicate 100 1
  exact ⟨⟨by rw [l1600]; norm_num, h.2.1 _ (by rw [l1600]; norm_num)⟩,
    ⟨by rw [l100]; norm_num, h.2.2.1 _ (by rw [l100]; norm_num)⟩, h.1⟩

/-- Claim C2 (amended): dimension `i` of the hash-based fallback reads bit
`i mod 8` of byte `i mod 32` of the digest, but the bit only decides whether
the random offset `rand i - 0.5` is negated; every value lies in
`[-0.5, 0.5]`, and the sign is not determined by the bit, so two calls on
the same text can disagree on the sign of a dimension (see the
counterexample). -/
theorem generateHashBasedEmbedding_formula (digest : List ℕ) (rand : ℕ → ℚ) (i : ℕ)
    (hlen : digest.length = 32) (hi : i < 384) (h0 : 0 ≤ rand i) (h1 : rand i < 1) :
    (generateHashBasedEmbedding digest rand).getD i 0 =
      (if (digest.getD (i % 32) 0 >>> (i % 8)) % 2 = 1 then rand i - 1/2 else -(rand i - 1/2))
    ∧ -(1/2 : ℚ) ≤ (generateHashBasedEmbedding digest rand).getD i 0
    ∧ (generateHashBasedEmbedding digest rand).getD i 0 ≤ 1/2 := by
  have he : (generateHashBasedEmbedding digest rand).getD i 0 =
      (if (digest.getD (i % 32) 0 >>> (i % 8)) % 2 = 1 then rand i - 1/2
        else -(rand i - 1/2)) := by
    unfold generateHashBasedEmbedding
    rw [getD_map_range _ _ _ hi, hlen]
  refine ⟨he, ?_, ?_⟩ <;> rw [he] <;> split <;> linarith

/-- Witness for C2 at digest 0³², the zero random stream and dimension 0. -/
theorem generateHashBasedEmbedding_formula_witness :
    (generateHashBasedEmbedding (List.replicate 32 0) (fun _ => 0)).getD 0 0 =
      (if ((List.replicate 32 (0:ℕ)).getD (0 % 32) 0 >>> (0 % 8)) % 2 = 1
        then (0:ℚ) - 1/2 else -((0:ℚ) - 1/2))
    ∧ -(1/2 : ℚ) ≤ (generateHashBasedEmbedding (List.replicate 32 0) (fun _ => 0)).getD 0 0
    ∧ (generateHashBasedEmbedding (List.replicate 32 0) (fun _ => 0)).getD 0 0 ≤ 1/2 :=
  generateHashBasedEmbedding_formula (List.replicate 32 0) (fun _ => 0) 0 (by simp)
    (by norm_num) le_rfl (by norm_num)

/-- Counterexample to C2 as stated: on the same digest (same text), the
legal `Math.random` streams 1/4 and 3/4 give dimension 0 opposite signs, so
the sign of a dimension is not deterministic across calls. -/
theorem generateHashBasedEmbedding_sign_cex :
    0 < (generateHashBasedEmbedding (List.replicate 32 0) (fun _ => (1:ℚ)/4)).getD 0 0
    ∧ (generateHashBasedEmbedding (List.replicate 32 0) (fun _ => (3:ℚ)/4)).getD 0 0 < 0
    ∧ ((0:ℚ) ≤ 1/4 ∧ (1:ℚ)/4 < 1)
    ∧ ((0:ℚ) ≤ 3/4 ∧ (3:ℚ)/4 < 1) := by
  have e1 : (generateHashBasedEmbedding (List.replicate 32 0) (fun _ => (1:ℚ)/4)).getD 0 0
      = 1/4 := by
    unfold generateHashBasedEmbedding
    rw [getD_map_range _ _ _ (by norm_num)]
    simp [List.getD_eq_getElem?_getD, List.getElem?_replicate]
    norm_num
  have e2 : (generateHashBasedEmbedding (List.replicate 32 0) (fun _ => (3:ℚ)/4)).getD 0 0
      = -(1/4) := by
    unfold generateHashBasedEmbedding
    rw [getD_map_range _ _ _ (by norm_num)]
    simp [List.getD_eq_getElem?_getD, List.getElem?_replicate]
    norm_num
  rw [e1, e2]
  refine ⟨by norm_num, by norm_num, ⟨by norm_num, by norm_num⟩, ⟨by norm_num, by norm_num⟩⟩

/-- Claim C3 (amended): `extractPdfText` is a sequential first-success
chain — when LlamaParse yields text, that text is used and pdf2json never
runs; pdf2json runs only after a LlamaParse failure; when both fail the
sentinel string is returned instead of an exception.  No quality scoring is
performed. -/
theorem extractPdfText_llama_first (lr pr : Option Str) :
    (∀ t, tryLlamaParsePdf lr = some t → extractPdfText lr pr = (t, [PdfStage.llama]))
    ∧ (tryLlamaParsePdf lr = none → ∀ t, tryPdf2JsonExtract pr = some t →
        extractPdfText lr pr = (t, [PdfStage.llama, PdfStage.pdf2json]))
    ∧ (tryLlamaParsePdf lr = none → tryPdf2JsonExtract pr = none →
        extractPdfText lr pr = (pdfSentinel, [PdfStage.llama, PdfStage.pdf2json])) := by
  refine ⟨?_, ?_, ?_⟩
  · intro t ht
    unfold extractPdfText
    rw [ht]
  · intro h1 t ht
    unfold extractPdfText
    rw [h1, ht]
  · intro h1 h2
    unfold extractPdfText
    rw [h1, h2]

/-- Witness for C3: LlamaParse fails, pdf2json succeeds and its cleaned
text is returned with both stages invoked. -/
theorem extractPdfText_llama_first_witness :
    extractPdfText none (some " hello ".data)
      = ("hello".data, [PdfStage.llama, PdfStage.pdf2json]) :=
  (extractPdfText_llama_first none (some " hello ".data)).2.1 rfl "hello".data (by decide)

/-- Counterexample to C3 as stated: with both parsers able to succeed, the
extractor returns the LlamaParse text and never invokes pdf2json, so the
two strategies are not both run and no quality comparison takes place. -/
theorem extractPdfText_skips_pdf2json_cex :
    extractPdfText (some "Layout text".data) (some "Token text".data)
      = ("Layout text".data, [PdfStage.llama])
    ∧ PdfStage.pdf2json ∉
        (extractPdfText (some "Layout text".data) (some "Token text".data)).2 := by
  decide

/-- Claim C10: `QualityMonitor.cosineSimilarity` is total and never
divides by zero: vectors of unequal length give 0, a zero magnitude on
either side gives 0, and otherwise the result is the dot product divided by
the product of the magnitudes. -/
theorem cosineSimilarity_total (a b : List ℝ) :
    (a.length ≠ b.length → cosineSimilarity a b = 0)
    ∧ (a.length = b.length →
        (Real.sqrt (sumSquares a) = 0 ∨ Real.sqrt (sumSquares b) = 0) →
        cosineSimilarity a b = 0)
    ∧ (a.length = b.length → Real.sqrt (sumSquares a) ≠ 0 → Real.sqrt (sumSquares b) ≠ 0 →
        cosineSimilarity a b =
          dotProduct a b / (Real.sqrt (sumSquares a) * Real.sqrt (sumSquares b))) := by
  refine ⟨?_, ?_, ?_⟩
  · intro h
    unfold cosineSimilarity
    rw [if_pos h]
  · intro h hz
    unfold cosineSimilarity
    rw [if_neg (fun hn => hn h), if_pos (mul_eq_zero.mpr hz)]
  · intro h h1 h2
    unfold cosineSimilarity
    rw [if_neg (fun hn => hn h), if_neg (mul_ne_zero h1 h2)]

/-- Witness for C10 on the vector (3,4) of magnitude 5. -/
theorem cosineSimilarity_total_witness :
    cosineSimilarity [(3:ℝ), 4] [(3:ℝ), 4] =
      dotProduct [(3:ℝ), 4] [(3:ℝ), 4]
        / (Real.sqrt (sumSquares [(3:ℝ), 4]) * Real.sqrt (sumSquares [(3:ℝ), 4])) := by
  have h25 : sumSquares [(3:ℝ), 4] = 25 := by
    norm_num [sumSquares]
  have hnz : Real.sqrt (sumSquares [(3:ℝ), 4]) ≠ 0 := by
    rw [h25]
    exact Real.sqrt_ne_zero'.mpr (by norm_num)
  exact (cosineSimilarity_total [(3:ℝ), 4] [(3:ℝ), 4]).2.2 rfl hnz hnz

/-- Claim C5 (amended): the retrieval cascade invokes at most each of
vector, keyword and `chunk_index`-ordered fallback, in that order; the
vector RPC runs exactly when a query embedding is available (provider
configured and successful); the keyword query (lowercase words longer than
2 characters, OR semantics, owner-scoped) runs exactly when the vector
stage was skipped, errored or returned zero rows and the query has
keywords; the fallback listing runs exactly when the keyword stage also
produced nothing (no keywords, error, or zero rows); and non-empty keyword
results are the rows returned. -/
theorem searchDocuments_cascade (q : Str) (o : SearchOracles) :
    ((searchDocuments q o).2).Sublist
        [SearchStage.vector, SearchStage.keyword, SearchStage.fallback]
    ∧ (SearchStage.vector ∈ (searchDocuments q o).2 ↔ o.provider.isSome = true)
    ∧ (SearchStage.keyword ∈ (searchDocuments q o).2 ↔
        ((vectorOutcome o = none ∨ vectorOutcome o = some []) ∧ queryKeywords q ≠ []))
    ∧ (SearchStage.fallback ∈ (searchDocuments q o).2 ↔
        ((vectorOutcome o = none ∨ vectorOutcome o = some [])
          ∧ (queryKeywords q = [] ∨ o.keywordRes = .error () ∨ o.keywordRes = .ok [])))
    ∧ (∀ l, o.keywordRes = .ok l → l ≠ [] →
        (vectorOutcome o = none ∨ vectorOutcome o = some []) → queryKeywords q ≠ [] →
        (searchDocuments q o).1 = l) := by
  obtain ⟨prov, vres, kres, fres⟩ := o
  by_cases hk : queryKeywords q = [] <;>
    rcases prov with _ | raw <;>
    rcases vres with u | (_ | ⟨v0, vrest⟩) <;>
    rcases kres with u2 | (_ | ⟨k0, krest⟩) <;>
    rcases fres with u3 | fl <;>
    simp_all [searchDocuments, vectorOutcome, needsMore, padOrTruncateEmbedding_length]

/-- Witness for C5: with no provider and a matching keyword row, the
keyword results are returned. -/
theorem searchDocuments_cascade_witness :
    (searchDocuments "hello world".data
        ⟨none, .error (), .ok [⟨"doc".data, 0⟩], .ok []⟩).1 = [⟨"doc".data, 0⟩] :=
  (searchDocuments_cascade "hello world".data
      ⟨none, .error (), .ok [⟨"doc".data, 0⟩], .ok []⟩).2.2.2.2
    [⟨"doc".data, 0⟩] rfl (by decide) (Or.inl rfl) (by decide)

/-- Counterexample to C5 as stated: with no embedding provider the vector
stage is never attempted — the trace contains only the keyword stage — so
vector search is not always attempted first. -/
theorem searchDocuments_vector_skipped_cex :
    (searchDocuments "hello world".data
        ⟨none, .ok [⟨"doc".data, 0⟩], .ok [⟨"doc".data, 0⟩], .ok []⟩).2 = [SearchStage.keyword]
    ∧ SearchStage.vector ∉ (searchDocuments "hello world".data
        ⟨none, .ok [⟨"doc".data, 0⟩], .ok [⟨"doc".data, 0⟩], .ok []⟩).2
    ∧ (searchDocuments "hello world".data
        ⟨none, .ok [⟨"doc".data, 0⟩], .ok [⟨"doc".data, 0⟩], .ok []⟩).1
      = [⟨"doc".data, 0⟩] := by
  decide

/-- Claim C6 (amended): every chunk produced by `chunkUnitsWithOverlap`
either has content length at most `maxChunkSize` or is the trimmed content
of a single atomic unit emitted verbatim; units are never split.  (The
`groupAndChunkByUnitsSimple` variant violates this bound — see the
counterexample.) -/
theorem chunkUnitsWithOverlap_bounded (units : List Str) (maxChunkSize overlap : ℕ) :
    ∀ c ∈ chunkUnitsWithOverlap units maxChunkSize overlap,
      c.content.length ≤ maxChunkSize ∨ ∃ u ∈ units, c.content = trimWs u := by
  intro c hc
  rcases cuwoAux_mem maxChunkSize overlap units [] [] (Nat.zero_le _) c hc with h | h | h
  · simp at h
  · exact Or.inl h
  · exact Or.inr h

/-- Witness for C6: a lone 12-character unit with bound 10 is emitted
verbatim as a single-unit chunk. -/
theorem chunkUnitsWithOverlap_bounded_witness :
    (⟨none, List.replicate 12 'x'⟩ : RChunk).content.length ≤ 10
    ∨ ∃ u ∈ [List.replicate 12 'x'],
        (⟨none, List.replicate 12 'x'⟩ : RChunk).content = trimWs u :=
  chunkUnitsWithOverlap_bounded [List.replicate 12 'x'] 10 5
    ⟨none, List.replicate 12 'x'⟩ (by decide)

/-- Counterexample to C6 as stated: in `groupAndChunkByUnitsSimple` with
bound 10 and overlap 5, three 8-character units produce the chunk
`aaaaaaaa bbbbbbbb` of length 17, which exceeds the bound and is not a
single unit — the overlap-seeded chunk is flushed without a re-check. -/
theorem groupAndChunkByUnitsSimple_overlong_cex :
    (groupAndChunkByUnitsSimple ["aaaaaaaa".data, "bbbbbbbb".data, "cccccccc".data] 10 5).map
        (fun c => c.content)
      = ["aaaaaaaa".data, "aaaaaaaa bbbbbbbb".data, "aaaaaaaa bbbbbbbb cccccccc".data]
    ∧ ¬ (∀ c ∈ groupAndChunkByUnitsSimple ["aaaaaaaa".data, "bbbbbbbb".data, "cccccccc".data] 10 5,
        c.content.length ≤ 10
          ∨ ∃ u ∈ ["aaaaaaaa".data, "bbbbbbbb".data, "cccccccc".data], c.content = trimWs u) := by
  decide

/-- Claim C7 (amended): on 2500 repetitions of `a` with maxSize 1000 the
character fallback invoked through `semanticChunkDocument` (fixed overlap
50, step 950) yields three chunks of lengths 1000, 1000 and 600 covering
the whole input with 50-character overlaps; with overlap 0 (the contract
default) the lengths are 1000, 1000 and 500 and the concatenation of the
chunks is exactly the input. -/
theorem semanticChunkDocument_a2500 :
    semanticChunkDocument (List.replicate 2500 'a') 1000
      = [⟨none, List.replicate 1000 'a'⟩, ⟨none, List.replicate 1000 'a'⟩,
          ⟨none, List.replicate 600 'a'⟩]
    ∧ chunkTextBySize (List.replicate 2500 'a') 1000 0
      = [⟨none, List.replicate 1000 'a'⟩, ⟨none, List.replicate 1000 'a'⟩,
          ⟨none, List.replicate 500 'a'⟩]
    ∧ (chunkTextBySize (List.replicate 2500 'a') 1000 0).foldr
        (fun c acc => c.content ++ acc) [] = List.replicate 2500 'a' := by
  have h0 : chunkTextBySize (List.replicate 2500 'a') 1000 0
      = [⟨none, List.replicate 1000 'a'⟩, ⟨none, List.replicate 1000 'a'⟩,
          ⟨none, List.replicate 500 'a'⟩] := by
    rw [chunkTextBySize_replicate_a 2500 1000 0 (by norm_num), charChunks_a2500_0]
  refine ⟨?_, h0, ?_⟩
  · unfold semanticChunkDocument
    rw [chunkTextBySize_replicate_a 2500 1000 50 (by norm_num), charChunks_a2500_50]
  · rw [h0]
    rw [show (2500 : ℕ) = 1000 + (1000 + 500) from by norm_num, List.replicate_add,
      List.replicate_add]
    simp only [List.foldr_cons, List.foldr_nil, List.append_nil]

/-- Counterexample to C7 as stated: the chunk lengths through
`semanticChunkDocument` are 1000, 1000, 600 — not 1000, 1000, 500 — because
the module passes a fixed overlap of 50 to the character fallback (the
repository's own test expects 600). -/
theorem semanticChunkDocument_a2500_cex :
    (semanticChunkDocument (List.replicate 2500 'a') 1000).map (fun c => c.content.length)
      = [1000, 1000, 600]
    ∧ ([1000, 1000, 600] : List ℕ) ≠ [1000, 1000, 500] := by
  constructor
  · unfold semanticChunkDocument
    rw [chunkTextBySize_replicate_a 2500 1000 50 (by norm_num), charChunks_a2500_50]
    simp only [List.map_cons, List.map_nil, List.length_replicate]
  · decide

/-- Claim C9 (amended): when strictly more than half of the
space-delimited tokens are single characters, the normalizer removes every
single whitespace character standing between two word characters of the
normalized text — joining ALL adjacent alphanumeric tokens, including
multi-character ones — then re-collapses and trims; when the fraction is at
most half, the text after the basic phase is returned unchanged. -/
theorem normalizeExtractedText_characterization (s : Str) :
    normalizeExtractedText s =
      (if ((normalizeBasic s).splitOn ' ').length
          < 2 * (((normalizeBasic s).splitOn ' ').filter (fun w => w.length = 1)).length then
        trimWs (collapseWs (dropWsBetweenWords (normalizeBasic s)))
      else normalizeBasic s) := by
  rw [← joinWordChars_eq_dropWsBetweenWords]
  rfl

/-- Counterexample to C9 as stated: on `a b c hello world` (3 of 5 tokens
single characters) the code joins everything into `abchelloworld`, whereas
joining only adjacent single-character tokens as the claim describes would
give `abc hello world` — multi-character tokens are not left intact. -/
theorem normalizeExtractedText_joins_all_cex :
    normalizeExtractedText "a b c hello world".data = "abchelloworld".data
    ∧ List.intercalate [' ']
        (specJoinSingleCharTokens (("a b c hello world".data).splitOn ' '))
      = "abc hello world".data
    ∧ "abchelloworld".data ≠ "abc hello world".data := by
  refine ⟨by decide, by decide, by decide⟩

/-- Witness for C4: an unprocessed document whose chunk embedding fails
ends with no chunk rows inserted and an error result. -/
theorem processDocument_all_or_nothing_witness :
    (processDocument ⟨false, none, none, []⟩
        ⟨true, .ok [], .ok "hi".data, fun _ => .error "boom".data, none, true, []⟩
        (fun _ => ["chunk one".data])).1.chunkRows = ([] : List ChunkRow)
    ∧ ∃ e, (processDocument ⟨false, none, none, []⟩
        ⟨true, .ok [], .ok "hi".data, fun _ => .error "boom".data, none, true, []⟩
        (fun _ => ["chunk one".data])).2 = .error e := by
  have h := processDocument_all_or_nothing ⟨false, none, none, []⟩
    ⟨true, .ok [], .ok "hi".data, fun _ => .error "boom".data, none, true, []⟩
    (fun _ => ["chunk one".data]) rfl
  have h2 := h.2.1 ["chunk one".data] rfl ⟨0, by decide, "boom".data, rfl⟩
  exact ⟨h2.1, h2.2⟩

/-- Witness for C8 on a concrete already-processed document. -/
theorem processDocument_already_processed_witness :
    processDocument ⟨true, none, none, []⟩
        ⟨true, .ok [], .ok "hi".data, fun _ => .ok [], none, true, []⟩ (fun _ => [])
      = (⟨true, some "Document already processed".data, none, []⟩,
          .error "Document already processed".data) :=
  processDocument_already_processed ⟨true, none, none, []⟩
    ⟨true, .ok [], .ok "hi".data, fun _ => .ok [], none, true, []⟩ (fun _ => []) rfl rfl

/-- Counterexample to C8 as stated: invoking `processDocument` on an
already-processed document does change the document state — the failure
message is recorded in `processing_error`. -/
theorem processDocument_state_changed_cex :
    (processDocument ⟨true, none, none, []⟩
        ⟨true, .ok [], .ok "hi".data, fun _ => .ok [], none, true, []⟩ (fun _ => [])).1
      ≠ (⟨true, none, none, []⟩ : DocState) := by
  decide

end FamilyVault
